import Mathlib

/-!
Verification of the Pato plugin-host platform against its specification.

The repository ships a Tauri UI script (`src-ui/index.js`) together with
design documents for the plugin core (lifecycle manager, event bus,
capability gateway, credential vault).  The UI script is embedded directly;
the plugin core is not present in the source tree, so it is modelled from
the specification text, as flagged on each such definition.
-/

namespace Pato

/-! ## Embedding of `src-ui/index.js` -/

/-- Contiguous-occurrence test: `infixOf needle hay` is true when `needle`
occurs contiguously in `hay` (helper for the JS `String.prototype.includes`
semantics). -/
def infixOf (needle : List Char) : List Char → Bool
  | [] => needle.isEmpty
  | c :: t => needle.isPrefixOf (c :: t) || infixOf needle t

/-- JS `String.prototype.includes`: `includes s sub` is true when `sub`
occurs contiguously inside `s`. -/
def includes (s sub : String) : Bool :=
  infixOf sub.data s.data

/-- The slice of DOM state that `index.js` touches: the `innerHTML` of the
element with id `result`, or `none` when the document has no such element. -/
structure Doc where
  resultElement : Option String
deriving DecidableEq, Repr

/-- The green success paragraph built by `showResult` for messages
containing `Plugin returned:`. -/
def greenP (message : String) : String :=
  "<p style=\"color: green;\">✅ " ++ message ++ "</p>"

/-- The red failure paragraph built by `showResult` for messages
containing `failed:`. -/
def redP (message : String) : String :=
  "<p style=\"color: red;\">❌ " ++ message ++ "</p>"

/-- The plain paragraph built by `showResult` for all other messages. -/
def plainP (message : String) : String :=
  "<p>" ++ message ++ "</p>"

/-- The function `showResult` from `src-ui/index.js`: looks up the `result` element and,
when present, writes one of three paragraph variants to its `innerHTML`,
testing `message.includes` in the source's branch order. -/
def showResult (message : String) (doc : Doc) : Doc :=
  match doc.resultElement with
  | none => doc
  | some _ =>
    if includes message "Plugin returned:" then
      { doc with resultElement := some (greenP message) }
    else if includes message "failed:" then
      { doc with resultElement := some (redP message) }
    else
      { doc with resultElement := some (plainP message) }

/-- One backend command issued through the Tauri `invoke` bridge. -/
structure Invocation where
  cmd : String
  args : List String
deriving DecidableEq, Repr

/-- The function `clickButton` from `src-ui/index.js`: awaits
`invoke('handle_button_click')` with no arguments, discards the result, and
touches no DOM state.  The returned list records the backend commands the
call issues; the `Doc` is passed through unchanged. -/
def clickButton (doc : Doc) : List Invocation × Doc :=
  ([⟨"handle_button_click", []⟩], doc)

/-- The callback registered for the `button-clicked` Tauri event inside the
`DOMContentLoaded` handler of `src-ui/index.js`: forwards the event payload
to `showResult`. -/
def buttonClickedListener (payload : String) (doc : Doc) : Doc :=
  showResult payload doc

/-- The event listeners registered by the `DOMContentLoaded` handler of
`src-ui/index.js`: exactly one, for `button-clicked`. -/
def domContentLoadedListeners : List (String × (String → Doc → Doc)) :=
  [("button-clicked", buttonClickedListener)]

/-! ## Spec-modelled plugin core

The lifecycle manager, event bus, capability gateway and credential vault
are described in the specification but are not present in the source tree
(the repository holds only design documents for them).  Every definition
below is therefore modelled from the specification text, as its doc
comment records. -/

abbrev PluginId := String

/-- Modelled from the spec: an opaque authenticated-session handle held by
the Credential Vault (`CredentialToken.handle`); modelled as a string so
that the spec's scan of produced payloads against the vault's token set is
expressible. -/
abbrev Token := String

/-- Modelled from the spec: the `PluginState` enum of §3, together with the
terminal `ShutDown` state of the §4.1 state machine. -/
inductive PluginState
  | Discovered
  | Loaded
  | Initialized
  | Running
  | Suspended
  | ShuttingDown
  | ShutDown
  | Failed
deriving DecidableEq, Repr

/-- Modelled from the spec: the tagged-variant `Capability` of §3 —
`Network{scope}`, `Filesystem{scope}`, `ServiceApi{service, action-set}`,
`InterPlugin{target, interface}`. -/
inductive Capability
  | network (scope : String)
  | filesystem (scope : String)
  | serviceApi (service : String) (actions : List String)
  | interPlugin (target : PluginId) (iface : String)
deriving DecidableEq, Repr

/-- Modelled from the spec: an `Event` of §3 — type, source (a plugin id or
the host), a JSON-like payload modelled as a list of string atoms, and the
per-source publish sequence number that is its ordering key. -/
structure Event where
  type : String
  source : String
  payload : List String
  seq : Nat
deriving DecidableEq, Repr

/-- Modelled from the spec: a `Subscription` of §3 — plugin id plus an
event-type pattern (exact type or the wildcard `*`). -/
structure Subscription where
  pluginId : PluginId
  pattern : String
deriving DecidableEq, Repr

/-- Modelled from the spec: the per-plugin record owned by the Lifecycle
Manager — current state, granted capabilities from the manifest, the
manifest's declared event subscriptions (created on entry to
`Initialized`), and the per-subscriber bounded inbound queue of §4.2. -/
structure PluginRec where
  state : PluginState
  caps : List Capability
  declaredSubs : List String
  queue : List Event
deriving DecidableEq, Repr

/-- Modelled from the spec: the whole core state.  `published` is the bus
log of all Events ever published, `diags` the `Dropped` diagnostic Events
(§4.2, observability channel), `returns` the Gateway return values handed
back to callers, `outCalls` the connection-manager stub's record of
outbound actions, and `usedTokens` the host-internal ledger of vault
handles attached to those actions (not plugin-visible). -/
structure Sys where
  plugins : List (PluginId × PluginRec)
  subs : List Subscription
  vault : List (String × Token)
  capacity : Nat
  published : List Event
  diags : List Event
  returns : List (List String)
  outCalls : List (String × List String)
  usedTokens : List Token
  nextSeq : Nat
deriving DecidableEq, Repr

/-- First-match association lookup used for the plugin table and the
vault. -/
def assocLookup {β : Type} : List (String × β) → String → Option β
  | [], _ => none
  | p :: t, k => if p.1 = k then some p.2 else assocLookup t k

/-- Key-preserving update of one plugin's record. -/
def updRecs (pid : PluginId) (f : PluginRec → PluginRec) :
    List (PluginId × PluginRec) → List (PluginId × PluginRec) :=
  List.map fun pr => if pr.1 = pid then (pr.1, f pr.2) else pr

/-- Modelled from the spec: subscription matching of §4.2 — exact
event-type string or a wildcard pattern declared at subscribe time. -/
def patMatches (pat ty : String) : Bool :=
  pat == "*" || pat == ty

/-- Does some currently active Subscription of `pid` match event type
`ty`?  Evaluated at publish time (§4.2). -/
def subscribedTo (subs : List Subscription) (pid : PluginId) (ty : String) : Bool :=
  subs.any fun s => s.pluginId == pid && patMatches s.pattern ty

/-- Modelled from the spec: bounded enqueue with the oldest-drop
backpressure policy of §4.2 — below capacity the event is appended; on
overflow the oldest queued event is dropped (returned as the second
component, to be reported as a `Dropped` diagnostic) and the new event is
appended. -/
def enqueue (cap : Nat) (q : List Event) (e : Event) : List Event × Option Event :=
  if q.length < cap then (q ++ [e], none)
  else
    match q with
    | [] => (q ++ [e], none)
    | old :: rest => (rest ++ [e], some old)

/-- Modelled from the spec: the `Dropped` diagnostic Event published for
observability when a subscriber's queue overflows (§4.2); it identifies
the dropped event (type, payload and sequence number) and the subscriber.
It is recorded on the host observability channel `Sys.diags` rather than
re-entering subscriber queues, so diagnostics cannot cascade. -/
def droppedDiag (pid : PluginId) (d : Event) : Event :=
  { type := "Dropped", source := "host", payload := [d.type, pid] ++ d.payload, seq := d.seq }

/-- Delivery of event `e` to the record of plugin `pid`: enqueue when some
active Subscription matches, otherwise leave the queue untouched. -/
def deliverRec (subs : List Subscription) (cap : Nat) (e : Event)
    (pid : PluginId) (r : PluginRec) : PluginRec :=
  if subscribedTo subs pid e.type then { r with queue := (enqueue cap r.queue e).1 } else r

/-- The `Dropped` diagnostic (if any) produced by delivering `e` to plugin
`pid`. -/
def deliverDiag (subs : List Subscription) (cap : Nat) (e : Event)
    (pid : PluginId) (r : PluginRec) : Option Event :=
  if subscribedTo subs pid e.type then ((enqueue cap r.queue e).2).map (droppedDiag pid)
  else none

/-- Modelled from the spec: publish (§4.2) — non-blocking to the
publisher; the Event is appended to the bounded queue of every subscriber
with a currently matching Subscription, evaluated at publish time; each
overflow drops that subscriber's oldest queued event and records a
`Dropped` diagnostic. -/
def publish (sys : Sys) (e : Event) : Sys :=
  { sys with
    plugins := sys.plugins.map fun pr => (pr.1, deliverRec sys.subs sys.capacity e pr.1 pr.2)
    published := sys.published ++ [e]
    diags := sys.diags ++ sys.plugins.filterMap fun pr =>
      deliverDiag sys.subs sys.capacity e pr.1 pr.2 }

/-- All Subscriptions of `pid` removed — the atomic teardown performed on
entry to `ShuttingDown` or `Failed` (§4.1). -/
def revokeSubs (subs : List Subscription) (pid : PluginId) : List Subscription :=
  subs.filter fun s => !(s.pluginId == pid)

/-- The current PluginState of `pid`, if loaded. -/
def stateOf (sys : Sys) (pid : PluginId) : Option PluginState :=
  (assocLookup sys.plugins pid).map PluginRec.state

/-- The current inbound queue of `pid` (empty when not loaded). -/
def queueOf (sys : Sys) (pid : PluginId) : List Event :=
  match assocLookup sys.plugins pid with
  | some r => r.queue
  | none => []

/-- Modelled from the spec: loading hands the core an already-validated
component plus its manifest (§1) — the plugin enters the table in state
`Loaded` with its manifest capabilities and declared subscriptions; a
plugin id already present is left untouched. -/
def loadPlugin (sys : Sys) (pid : PluginId) (caps : List Capability)
    (decl : List String) : Sys :=
  match assocLookup sys.plugins pid with
  | some _ => sys
  | none => { sys with plugins := sys.plugins ++ [(pid, ⟨.Loaded, caps, decl, []⟩)] }

/-- Modelled from the spec: `Loaded→Initialized` (§4.1) invokes the
plugin's init entry point (its success is the `ok` flag); on success the
plugin's declared Subscriptions are created atomically with the state
change; failure (timeout, trap, explicit error) transitions directly to
`Failed`, never retried. -/
def initPlugin (sys : Sys) (pid : PluginId) (ok : Bool) : Sys :=
  match assocLookup sys.plugins pid with
  | some r =>
    if r.state = .Loaded then
      if ok then
        { sys with
          plugins := updRecs pid (fun q => { q with state := .Initialized }) sys.plugins
          subs := sys.subs ++ r.declaredSubs.map fun pat => ⟨pid, pat⟩ }
      else { sys with plugins := updRecs pid (fun q => { q with state := .Failed }) sys.plugins }
    else sys
  | none => sys

/-- Modelled from the spec: `Initialized → Running` (§4.1). -/
def startPlugin (sys : Sys) (pid : PluginId) : Sys :=
  match stateOf sys pid with
  | some .Initialized =>
    { sys with plugins := updRecs pid (fun q => { q with state := .Running }) sys.plugins }
  | _ => sys

/-- Modelled from the spec: `Running → Suspended` (§4.1), pausing event
delivery without tearing down state. -/
def suspendPlugin (sys : Sys) (pid : PluginId) : Sys :=
  match stateOf sys pid with
  | some .Running =>
    { sys with plugins := updRecs pid (fun q => { q with state := .Suspended }) sys.plugins }
  | _ => sys

/-- Modelled from the spec: `Suspended → Running` (§4.1). -/
def resumePlugin (sys : Sys) (pid : PluginId) : Sys :=
  match stateOf sys pid with
  | some .Suspended =>
    { sys with plugins := updRecs pid (fun q => { q with state := .Running }) sys.plugins }
  | _ => sys

/-- Modelled from the spec: entry to `ShuttingDown` (§4.1) — the plugin's
Subscriptions are revoked atomically with the state change and its queue
is drained without delivery (§4.2). -/
def shutdownPlugin (sys : Sys) (pid : PluginId) : Sys :=
  match stateOf sys pid with
  | some .Initialized | some .Running | some .Suspended =>
    { sys with
      plugins := updRecs pid (fun q => { q with state := .ShuttingDown, queue := [] }) sys.plugins
      subs := revokeSubs sys.subs pid }
  | _ => sys

/-- Modelled from the spec: `ShuttingDown → ShutDown` (§4.1) after the
best-effort shutdown entry point returns. -/
def finishShutdown (sys : Sys) (pid : PluginId) : Sys :=
  match stateOf sys pid with
  | some .ShuttingDown =>
    { sys with plugins := updRecs pid (fun q => { q with state := .ShutDown }) sys.plugins }
  | _ => sys

/-- Modelled from the spec: a runtime trap while `Running` (§4.1) forces an
immediate, unconditional transition to `Failed`; the instance's
Subscriptions are revoked and its queue drained as part of the same
(atomic, single-function) transition — no half-revoked intermediate state
exists in the model. -/
def trap (sys : Sys) (pid : PluginId) : Sys :=
  match stateOf sys pid with
  | some .Running =>
    { sys with
      plugins := updRecs pid (fun q => { q with state := .Failed, queue := [] }) sys.plugins
      subs := revokeSubs sys.subs pid }
  | _ => sys

/-- Modelled from the spec: the Gateway error taxonomy of §7 that the
Gateway itself returns. -/
inductive GatewayError
  | NotRunning
  | PermissionDenied
  | Timeout
  | Reentrant
deriving DecidableEq, Repr

/-- Modelled from the spec: all gateway outcomes are returned synchronously
to the caller as a result/error value (§4.3). -/
inductive GatewayResult
  | ok (val : List String)
  | err (e : GatewayError)
deriving DecidableEq, Repr

/-- The capability requirement resolved for a host function call. -/
inductive CapReq
  | service (service action : String)
  | inter (target : PluginId) (iface : String)
  | free
deriving DecidableEq, Repr

/-- Modelled from the spec: step (2) of the §4.3 validation sequence —
resolve the required Capability for `function-name`.  `send-message`
requires `ServiceApi{service, send-message}` for the service named in its
first argument; `call-plugin` requires `InterPlugin{target, interface}`;
`subscribe-to-event` and `emit-event` are part of the base event API and
need no extra grant. -/
def resolveCap (fn : String) (args : List String) : CapReq :=
  match fn, args with
  | "send-message", service :: _ => .service service "send-message"
  | "call-plugin", target :: iface :: _ => .inter target iface
  | _, _ => .free

/-- Modelled from the spec: step (3) of the §4.3 validation sequence — is
the required capability in the granted-capability set from the plugin's
manifest? -/
def granted (caps : List Capability) : CapReq → Bool
  | .free => true
  | .service sv ac => caps.any fun c =>
      match c with
      | .serviceApi s as => s == sv && as.contains ac
      | _ => false
  | .inter t i => caps.any fun c =>
      match c with
      | .interPlugin t2 i2 => t2 == t && i2 == i
      | _ => false

/-- Modelled from the spec: step (4) of §4.3, dispatch of an already
validated call.  `send-message` consults the Credential Vault by service
name and performs the action through the connection-manager stub using the
vault's opaque handle — the handle goes only to the host-internal ledger,
never into the return value; an unconnected service surfaces as a
`Timeout` of the external call.  `subscribe-to-event` adds a Subscription
for the caller; `emit-event` republishes on the Event Bus with the caller
as source; `call-plugin` forwards to a `Running` target. -/
def dispatch (sys : Sys) (pid : PluginId) (fn : String) (args : List String) :
    GatewayResult × Sys :=
  match fn, args with
  | "send-message", service :: rest =>
    match assocLookup sys.vault service with
    | some tok =>
      (.ok ["sent", service],
        { sys with
          outCalls := sys.outCalls ++ [(service, rest)]
          usedTokens := sys.usedTokens ++ [tok] })
    | none => (.err .Timeout, sys)
  | "subscribe-to-event", ty :: _ =>
    (.ok [ty], { sys with subs := sys.subs ++ [⟨pid, ty⟩] })
  | "emit-event", ty :: data =>
    (.ok [], publish { sys with nextSeq := sys.nextSeq + 1 } ⟨ty, pid, data, sys.nextSeq⟩)
  | "call-plugin", target :: iface :: _ =>
    match stateOf sys target with
    | some .Running => (.ok ["called", target, iface], sys)
    | _ => (.err .NotRunning, sys)
  | _, _ => (.ok [], sys)

/-- The plugin-visible atoms of a gateway outcome. -/
def resAtoms : GatewayResult → List String
  | .ok vs => vs
  | .err _ => []

/-- Modelled from the spec: the single Gateway entry point
`invoke(plugin-id, function-name, args)` with the §4.3 validation
sequence — (1) reject with `NotRunning` unless the caller's state is
`Running` (an unknown plugin id is likewise not `Running`); (2)–(3)
resolve the required Capability and reject with `PermissionDenied` when it
is absent from the manifest grants; (4) dispatch.  The returned value is
also recorded in `Sys.returns` as caller-observable output. -/
def invoke (sys : Sys) (pid : PluginId) (fn : String) (args : List String) :
    GatewayResult × Sys :=
  match assocLookup sys.plugins pid with
  | none => (.err .NotRunning, sys)
  | some r =>
    if r.state = .Running then
      if granted r.caps (resolveCap fn args) then
        let rs := dispatch sys pid fn args
        (rs.1, { rs.2 with returns := rs.2.returns ++ [resAtoms rs.1] })
      else (.err .PermissionDenied, sys)
    else (.err .NotRunning, sys)

/-- Modelled from the spec: the commands a simulated session is built
from — lifecycle transitions driven by the Lifecycle Manager, host-side
publication of normalized Events from the API Connection Manager, and
plugin calls through the Capability Gateway. -/
inductive Cmd
  | load (pid : PluginId) (caps : List Capability) (decl : List String)
  | initP (pid : PluginId) (ok : Bool)
  | start (pid : PluginId)
  | suspend (pid : PluginId)
  | resume (pid : PluginId)
  | shutdown (pid : PluginId)
  | finish (pid : PluginId)
  | trap (pid : PluginId)
  | publish (ty : String) (payload : List String)
  | invoke (pid : PluginId) (fn : String) (args : List String)
deriving DecidableEq, Repr

/-- One step of the simulated session. -/
def step (sys : Sys) : Cmd → Sys
  | .load pid caps decl => loadPlugin sys pid caps decl
  | .initP pid ok => initPlugin sys pid ok
  | .start pid => startPlugin sys pid
  | .suspend pid => suspendPlugin sys pid
  | .resume pid => resumePlugin sys pid
  | .shutdown pid => shutdownPlugin sys pid
  | .finish pid => finishShutdown sys pid
  | .trap pid => trap sys pid
  | .publish ty payload =>
    publish { sys with nextSeq := sys.nextSeq + 1 } ⟨ty, "host", payload, sys.nextSeq⟩
  | .invoke pid fn args => (invoke sys pid fn args).2

/-- A whole simulated session. -/
def run (sys : Sys) : List Cmd → Sys
  | [] => sys
  | c :: cs => run (step sys c) cs

/-- The states a Subscription's plugin may be in (§3 invariant). -/
def activeState : PluginState → Bool
  | .Initialized => true
  | .Running => true
  | .Suspended => true
  | _ => false

/-- The §3 invariant: every Subscription's plugin id references a plugin
whose state is strictly in `{Initialized, Running, Suspended}`. -/
def subsWF (subs : List Subscription) (plugins : List (PluginId × PluginRec)) : Bool :=
  subs.all fun s =>
    match assocLookup plugins s.pluginId with
    | some r => activeState r.state
    | none => false

/-- The string atoms of an Event that a plugin or the UI can observe. -/
def eventAtoms (e : Event) : List String :=
  e.type :: e.source :: e.payload

/-- The string atoms inside a Capability. -/
def capAtoms : Capability → List String
  | .network s => [s]
  | .filesystem s => [s]
  | .serviceApi s as => s :: as
  | .interPlugin t i => [t, i]

/-- The string atoms of one plugin's record (id, capability grants,
declared subscriptions, queued event contents). -/
def recAtoms (pid : PluginId) (r : PluginRec) : List String :=
  pid :: (r.caps.flatMap capAtoms ++ r.declaredSubs ++ r.queue.flatMap eventAtoms)

/-- Every plugin- or UI-observable string atom of the system: Event
payloads on the bus log, in the diagnostics and in subscriber queues,
Capability contents, Subscription fields and Gateway return values.  The
vault itself and the host-internal connection-manager ledger are
deliberately absent: they are not plugin-visible. -/
def sysAtoms (sys : Sys) : List String :=
  sys.published.flatMap eventAtoms ++ sys.diags.flatMap eventAtoms
    ++ sys.returns.flatten
    ++ sys.subs.flatMap (fun s => [s.pluginId, s.pattern])
    ++ sys.plugins.flatMap fun pr => recAtoms pr.1 pr.2

/-- The string atoms a command injects into the system. -/
def cmdAtoms : Cmd → List String
  | .load pid caps decl => pid :: (caps.flatMap capAtoms ++ decl)
  | .initP pid _ => [pid]
  | .start pid => [pid]
  | .suspend pid => [pid]
  | .resume pid => [pid]
  | .shutdown pid => [pid]
  | .finish pid => [pid]
  | .trap pid => [pid]
  | .publish ty payload => ty :: payload
  | .invoke pid fn args => pid :: fn :: args

/-- The fixed strings the host itself writes into observable values. -/
def hostAtoms : List String :=
  ["host", "Dropped", "sent", "called"]

/-- The vault's token set. -/
def tokensOf (sys : Sys) : List Token :=
  sys.vault.map Prod.snd

/-- A concrete session start state: plugin `alpha` is `Running` with a
`ServiceApi{twitch, send-message}` grant and a subscription to `chat`
events; plugin `beta` is `Suspended` with no grants; the vault holds one
Twitch session token. -/
def wSys : Sys :=
  { plugins :=
      [("alpha", ⟨.Running, [.serviceApi "twitch" ["send-message"]], ["chat"], []⟩),
       ("beta", ⟨.Suspended, [], [], []⟩)]
    subs := [⟨"alpha", "chat"⟩]
    vault := [("twitch", "tok-twitch-1")]
    capacity := 4
    published := []
    diags := []
    returns := []
    outCalls := []
    usedTokens := []
    nextSeq := 0 }

/-- The §8 overflow scenario start state: one subscriber `p` with an exact
subscription to `evt` events and queue capacity 4. -/
def subC7 : Sys :=
  { plugins := [("p", ⟨.Running, [], [], []⟩)]
    subs := [⟨"p", "evt"⟩]
    vault := []
    capacity := 4
    published := []
    diags := []
    returns := []
    outCalls := []
    usedTokens := []
    nextSeq := 0 }

/-- The i-th event of the §8 overflow scenario. -/
def evC7 (i : Nat) : Event :=
  ⟨"evt", "host", [], i⟩

/-- The §8 overflow scenario: six events published in sequence to the
stalled subscriber `p`. -/
def runC7 : Sys :=
  [evC7 1, evC7 2, evC7 3, evC7 4, evC7 5, evC7 6].foldl publish subC7

end Pato

namespace Pato

/-! ## Theorems for the UI claims -/

/-- C8: whenever the document has a `result` element, a message containing
`Plugin returned:` yields the green success paragraph — also when the
message contains `failed:` as well; the red paragraph is produced exactly
for messages containing `failed:` but not `Plugin returned:`, and every
other message yields the plain paragraph. -/
theorem showResult_classification (m : String) (doc : Doc) (el : String)
    (hdoc : doc.resultElement = some el) :
    (includes m "Plugin returned:" = true →
      (showResult m doc).resultElement = some (greenP m))
    ∧ (includes m "Plugin returned:" = false → includes m "failed:" = true →
      (showResult m doc).resultElement = some (redP m))
    ∧ (includes m "Plugin returned:" = false → includes m "failed:" = false →
      (showResult m doc).resultElement = some (plainP m)) := by
  refine ⟨?_, ?_, ?_⟩ <;> intros <;> simp_all [showResult]

/-- Witness for C8: the message `Plugin returned: ok but failed: later`
contains both marker substrings and still produces the green paragraph. -/
theorem showResult_classification_witness :
    (⟨some ""⟩ : Doc).resultElement = some ""
    ∧ includes "Plugin returned: ok but failed: later" "Plugin returned:" = true
    ∧ includes "Plugin returned: ok but failed: later" "failed:" = true
    ∧ (showResult "Plugin returned: ok but failed: later" ⟨some ""⟩).resultElement
        = some (greenP "Plugin returned: ok but failed: later") :=
  ⟨rfl, by decide, by decide,
    (showResult_classification "Plugin returned: ok but failed: later"
      ⟨some ""⟩ "" rfl).1 (by decide)⟩

/-- C9: when the document has no `result` element, `showResult` is the
identity on document state for every message (the `if (element)` guard
protects the dereference). -/
theorem showResult_no_element (m : String) (doc : Doc)
    (h : doc.resultElement = none) :
    showResult m doc = doc := by
  cases doc
  simp_all [showResult]

/-- Witness for C9: a concrete element-less document is returned unchanged. -/
theorem showResult_no_element_witness :
    (⟨none⟩ : Doc).resultElement = none
    ∧ showResult "anything failed: here" ⟨none⟩ = (⟨none⟩ : Doc) :=
  ⟨rfl, showResult_no_element "anything failed: here" ⟨none⟩ rfl⟩

/-- C10: `clickButton` issues exactly the backend command
`handle_button_click` with no arguments and leaves the document untouched
(the return value is discarded); the only path that updates the result
display is the `button-clicked` listener registered on `DOMContentLoaded`,
which applies `showResult` to the event payload. -/
theorem clickButton_invokes_backend :
    (∀ doc : Doc, clickButton doc = ([⟨"handle_button_click", []⟩], doc))
    ∧ domContentLoadedListeners
        = [("button-clicked", fun p doc => showResult p doc)] :=
  ⟨fun _ => rfl, rfl⟩

end Pato

namespace Pato

/-! ## Helper lemmas about the association list and queue primitives -/

theorem assocLookup_append_left {β : Type} (ps qs : List (String × β)) (k : String)
    (r : β) (h : assocLookup ps k = some r) :
    assocLookup (ps ++ qs) k = some r := by
  induction ps with
  | nil => simp [assocLookup] at h
  | cons p t ih =>
    by_cases hk : p.1 = k
    · simp_all [assocLookup]
    · simp_all [assocLookup]

theorem assocLookup_append_none {β : Type} (ps qs : List (String × β)) (k : String)
    (h : assocLookup ps k = none) :
    assocLookup (ps ++ qs) k = assocLookup qs k := by
  induction ps with
  | nil => simp [assocLookup]
  | cons p t ih =>
    by_cases hk : p.1 = k
    · simp_all [assocLookup]
    · simp_all [assocLookup]

theorem assocLookup_updRecs (ps : List (PluginId × PluginRec)) (pid q : PluginId)
    (f : PluginRec → PluginRec) :
    assocLookup (updRecs pid f ps) q
      = if q = pid then (assocLookup ps pid).map f else assocLookup ps q := by
  induction ps with
  | nil => simp [assocLookup, updRecs]
  | cons p t ih =>
    simp only [updRecs, List.map_cons] at ih ⊢
    by_cases hp : p.1 = pid
    · rw [if_pos hp]
      by_cases hq : q = pid
      · subst hq
        simp [assocLookup, hp, ih]
      · have hpq : ¬ p.1 = q := fun h => hq (h.symm.trans hp)
        have hpq2 : ¬ pid = q := fun h => hq h.symm
        simp [assocLookup, hpq, hpq2, hq, ih]
    · rw [if_neg hp]
      by_cases hq : p.1 = q
      · have hqpid : ¬ q = pid := fun h => hp (hq.trans h)
        simp [assocLookup, hq, hqpid, hp]
      · simp [assocLookup, hq, hp, ih]

theorem assocLookup_mapVal (g : PluginId → PluginRec → PluginRec)
    (ps : List (PluginId × PluginRec)) (q : PluginId) :
    assocLookup (ps.map fun pr => (pr.1, g pr.1 pr.2)) q
      = (assocLookup ps q).map (g q) := by
  induction ps with
  | nil => simp [assocLookup]
  | cons p t ih =>
    by_cases hq : p.1 = q <;> simp_all [assocLookup]

end Pato

namespace Pato

theorem enqueue_below_capacity (cap : Nat) (q : List Event) (e : Event)
    (h : q.length < cap) : enqueue cap q e = (q ++ [e], none) := by
  simp [enqueue, h]

theorem enqueue_fst_mem (cap : Nat) (q : List Event) (e : Event) (x : Event)
    (h : x ∈ (enqueue cap q e).1) : x ∈ q ∨ x = e := by
  unfold enqueue at h
  split at h
  · rcases List.mem_append.mp h with h1 | h1
    · exact Or.inl h1
    · exact Or.inr (List.mem_singleton.mp h1)
  · split at h
    · rcases List.mem_append.mp h with h1 | h1
      · exact Or.inl h1
      · exact Or.inr (List.mem_singleton.mp h1)
    · rcases List.mem_append.mp h with h1 | h1
      · exact Or.inl (List.mem_cons_of_mem _ h1)
      · exact Or.inr (List.mem_singleton.mp h1)

theorem enqueue_snd_mem (cap : Nat) (q : List Event) (e : Event) (d : Event)
    (h : (enqueue cap q e).2 = some d) : d ∈ q := by
  unfold enqueue at h
  split at h
  · simp at h
  · split at h
    · simp at h
    · simp at h
      exact h ▸ List.mem_cons_self _ _

theorem revokeSubs_mem (subs : List Subscription) (pid : PluginId) (s : Subscription) :
    s ∈ revokeSubs subs pid ↔ s ∈ subs ∧ ¬ s.pluginId = pid := by
  simp [revokeSubs, List.mem_filter]

theorem deliverRec_state (subs : List Subscription) (cap : Nat) (e : Event)
    (pid : PluginId) (r : PluginRec) :
    (deliverRec subs cap e pid r).state = r.state := by
  unfold deliverRec
  split <;> rfl

theorem publish_plugins_lookup (sys : Sys) (e : Event) (pid : PluginId) :
    assocLookup (publish sys e).plugins pid
      = (assocLookup sys.plugins pid).map (deliverRec sys.subs sys.capacity e pid) := by
  simp only [publish]
  exact assocLookup_mapVal (deliverRec sys.subs sys.capacity e) sys.plugins pid

end Pato

namespace Pato

/-! ## Capability Gateway theorems -/

theorem invoke_not_running (sys : Sys) (pid : PluginId) (fn : String)
    (args : List String) (h : ¬ stateOf sys pid = some .Running) :
    invoke sys pid fn args = (.err .NotRunning, sys) := by
  unfold invoke
  cases hL : assocLookup sys.plugins pid with
  | none => rfl
  | some r =>
    have hr : ¬ r.state = .Running := fun hc => h (by simp [stateOf, hL, hc])
    simp [hr]

/-- C3: the §4.3 validation sequence checks the caller's state first — a
Gateway call against a plugin that is not `Running` (unknown ids included)
is rejected synchronously with `NotRunning` for every function name and
argument list, regardless of the capability situation, and the system is
left unchanged. -/
theorem gateway_state_checked_first (sys : Sys) (pid : PluginId) (fn : String)
    (args : List String) (h : ¬ stateOf sys pid = some .Running) :
    invoke sys pid fn args = (.err .NotRunning, sys) :=
  invoke_not_running sys pid fn args h

/-- Witness for C3: the `Suspended` plugin `beta` also lacks the
capability for `send-message`, yet the rejection is `NotRunning`. -/
theorem gateway_state_checked_first_witness :
    ¬ stateOf wSys "beta" = some .Running
    ∧ granted [] (resolveCap "send-message" ["discord", "general", "hi"]) = false
    ∧ invoke wSys "beta" "send-message" ["discord", "general", "hi"]
        = (.err .NotRunning, wSys) :=
  ⟨by decide, by decide,
    gateway_state_checked_first wSys "beta" "send-message"
      ["discord", "general", "hi"] (by decide)⟩

/-- C2: a Gateway call whose required capability is absent from the
caller's manifest grants returns `PermissionDenied` for every argument
list, leaves the system unchanged, and the caller keeps running. -/
theorem gateway_permission_denied (sys : Sys) (pid : PluginId) (fn : String)
    (args : List String) (r : PluginRec)
    (hp : assocLookup sys.plugins pid = some r)
    (hr : r.state = .Running)
    (hc : granted r.caps (resolveCap fn args) = false) :
    invoke sys pid fn args = (.err .PermissionDenied, sys)
    ∧ stateOf (invoke sys pid fn args).2 pid = some .Running := by
  have h1 : invoke sys pid fn args = (.err .PermissionDenied, sys) := by
    unfold invoke
    simp [hp, hr, hc]
  exact ⟨h1, by simp [h1, stateOf, hp, hr]⟩

/-- Witness for C2: `alpha` holds only the Twitch grant, so a Discord
`send-message` is rejected with `PermissionDenied` while `alpha` stays
`Running`. -/
theorem gateway_permission_denied_witness :
    assocLookup wSys.plugins "alpha"
      = some ⟨.Running, [.serviceApi "twitch" ["send-message"]], ["chat"], []⟩
    ∧ granted [.serviceApi "twitch" ["send-message"]]
        (resolveCap "send-message" ["discord", "general", "hi"]) = false
    ∧ invoke wSys "alpha" "send-message" ["discord", "general", "hi"]
        = (.err .PermissionDenied, wSys)
    ∧ stateOf (invoke wSys "alpha" "send-message" ["discord", "general", "hi"]).2 "alpha"
        = some .Running :=
  ⟨by decide, by decide,
    (gateway_permission_denied wSys "alpha" "send-message" ["discord", "general", "hi"]
      ⟨.Running, [.serviceApi "twitch" ["send-message"]], ["chat"], []⟩
      (by decide) rfl (by decide)).1,
    (gateway_permission_denied wSys "alpha" "send-message" ["discord", "general", "hi"]
      ⟨.Running, [.serviceApi "twitch" ["send-message"]], ["chat"], []⟩
      (by decide) rfl (by decide)).2⟩

end Pato

namespace Pato

/-! ## Lifecycle fault-containment theorems -/

theorem subscribedTo_revoke (subs : List Subscription) (pid : PluginId) (ty : String) :
    subscribedTo (revokeSubs subs pid) pid ty = false := by
  rw [Bool.eq_false_iff]
  intro h
  rcases List.any_eq_true.mp h with ⟨s, hs, hpat⟩
  rcases (revokeSubs_mem subs pid s).mp hs with ⟨_, hne⟩
  have hid : (s.pluginId == pid) = true := (Bool.and_eq_true _ _ ▸ hpat).1
  exact hne (by simpa using hid)

theorem publish_queue_unsubscribed (sys : Sys) (e : Event) (pid : PluginId)
    (h : subscribedTo sys.subs pid e.type = false) :
    queueOf (publish sys e) pid = queueOf sys pid := by
  unfold queueOf
  rw [publish_plugins_lookup]
  cases assocLookup sys.plugins pid with
  | none => rfl
  | some r => simp [deliverRec, h]

theorem trap_unfold (sys : Sys) (pid : PluginId) (r : PluginRec)
    (hp : assocLookup sys.plugins pid = some r) (hr : r.state = .Running) :
    trap sys pid
      = { sys with
          plugins := updRecs pid (fun q => { q with state := .Failed, queue := [] }) sys.plugins
          subs := revokeSubs sys.subs pid } := by
  unfold trap
  simp [stateOf, hp, hr]

/-- C4: a runtime trap while `Running` transitions the instance, in one
atomic step, to `Failed` with its queue drained; afterwards every
Subscription of that plugin is gone from the bus, every further Gateway
call from it is rejected with `NotRunning`, and a subsequent publish of
any event delivers nothing to it (its queue stays empty). -/
theorem trap_isolates (sys : Sys) (pid : PluginId) (r : PluginRec)
    (hp : assocLookup sys.plugins pid = some r)
    (hr : r.state = .Running) :
    stateOf (trap sys pid) pid = some .Failed
    ∧ (∀ s ∈ (trap sys pid).subs, ¬ s.pluginId = pid)
    ∧ (∀ fn args, invoke (trap sys pid) pid fn args = (.err .NotRunning, trap sys pid))
    ∧ queueOf (trap sys pid) pid = []
    ∧ (∀ e, queueOf (publish (trap sys pid) e) pid = []) := by
  have ht := trap_unfold sys pid r hp hr
  have hlook : assocLookup (trap sys pid).plugins pid
      = some { r with state := .Failed, queue := [] } := by
    rw [ht]
    simp [assocLookup_updRecs, hp]
  have hstate : stateOf (trap sys pid) pid = some .Failed := by
    simp [stateOf, hlook]
  have hsubs : ∀ s ∈ (trap sys pid).subs, ¬ s.pluginId = pid := by
    intro s hs
    rw [ht] at hs
    exact ((revokeSubs_mem sys.subs pid s).mp hs).2
  have hqueue : queueOf (trap sys pid) pid = [] := by
    simp [queueOf, hlook]
  refine ⟨hstate, hsubs, ?_, hqueue, ?_⟩
  · intro fn args
    exact invoke_not_running _ pid fn args (by simp [hstate])
  · intro e
    have hsub : subscribedTo (trap sys pid).subs pid e.type = false := by
      rw [ht]
      exact subscribedTo_revoke sys.subs pid e.type
    rw [publish_queue_unsubscribed _ _ _ hsub, hqueue]

/-- Witness for C4: trapping the `Running` plugin `alpha` of the concrete
session marks it `Failed` and a subsequent matching `chat` publish
delivers nothing to it. -/
theorem trap_isolates_witness :
    assocLookup wSys.plugins "alpha"
      = some ⟨.Running, [.serviceApi "twitch" ["send-message"]], ["chat"], []⟩
    ∧ stateOf (trap wSys "alpha") "alpha" = some .Failed
    ∧ queueOf (publish (trap wSys "alpha") ⟨"chat", "host", ["hello"], 0⟩) "alpha" = [] :=
  ⟨by decide,
    (trap_isolates wSys "alpha"
      ⟨.Running, [.serviceApi "twitch" ["send-message"]], ["chat"], []⟩
      (by decide) rfl).1,
    (trap_isolates wSys "alpha"
      ⟨.Running, [.serviceApi "twitch" ["send-message"]], ["chat"], []⟩
      (by decide) rfl).2.2.2.2 ⟨"chat", "host", ["hello"], 0⟩⟩

end Pato

namespace Pato

/-! ## Event Bus delivery theorems -/

theorem publish_queue_subscribed (sys : Sys) (e : Event) (pid : PluginId) (r : PluginRec)
    (hp : assocLookup sys.plugins pid = some r)
    (hm : subscribedTo sys.subs pid e.type = true)
    (hc : r.queue.length < sys.capacity) :
    assocLookup (publish sys e).plugins pid = some { r with queue := r.queue ++ [e] } := by
  rw [publish_plugins_lookup, hp]
  simp [deliverRec, hm, enqueue_below_capacity _ _ _ hc]

theorem publish_fold_order (es : List Event) (sys : Sys) (pid : PluginId) (r : PluginRec)
    (hp : assocLookup sys.plugins pid = some r)
    (hm : ∀ e ∈ es, subscribedTo sys.subs pid e.type = true)
    (hc : r.queue.length + es.length ≤ sys.capacity) :
    assocLookup (es.foldl publish sys).plugins pid = some { r with queue := r.queue ++ es } := by
  induction es generalizing sys r with
  | nil => simpa using hp
  | cons e t ih =>
    have hm1 : subscribedTo sys.subs pid e.type = true := hm e (List.mem_cons_self _ _)
    have hc1 : r.queue.length < sys.capacity := by
      simp at hc
      omega
    have h1 := publish_queue_subscribed sys e pid r hp hm1 hc1
    have hsubs : (publish sys e).subs = sys.subs := rfl
    have hcap : (publish sys e).capacity = sys.capacity := rfl
    have h2 := ih (publish sys e) { r with queue := r.queue ++ [e] } h1
      (by
        intro x hx
        rw [hsubs]
        exact hm x (List.mem_cons_of_mem _ hx))
      (by
        rw [hcap]
        simp at hc ⊢
        omega)
    simpa [List.append_assoc] using h2

/-- C6 (amended): while the subscriber's bounded queue does not overflow,
every Event published with a matching active Subscription is appended to
that subscriber's queue exactly once and in publish order; and a publish
enqueues nothing for a subscriber without a currently matching
Subscription, so subscriptions added after a publish never receive it
retroactively. -/
theorem eventBus_ordered_delivery (sys : Sys) (pid : PluginId) (r : PluginRec)
    (es : List Event)
    (hp : assocLookup sys.plugins pid = some r)
    (hm : ∀ e ∈ es, subscribedTo sys.subs pid e.type = true)
    (hc : r.queue.length + es.length ≤ sys.capacity) :
    queueOf (es.foldl publish sys) pid = r.queue ++ es
    ∧ ∀ (other : Sys) (f : Event), subscribedTo other.subs pid f.type = false →
        queueOf (publish other f) pid = queueOf other pid := by
  refine ⟨?_, ?_⟩
  · simp [queueOf, publish_fold_order es sys pid r hp hm hc]
  · intro other f hf
    exact publish_queue_unsubscribed other f pid hf

/-- Witness for C6: three `chat` events published to the concrete session
land in `alpha`'s queue exactly once each, in publish order. -/
theorem eventBus_ordered_delivery_witness :
    assocLookup wSys.plugins "alpha"
      = some ⟨.Running, [.serviceApi "twitch" ["send-message"]], ["chat"], []⟩
    ∧ queueOf
        ([⟨"chat", "host", ["a"], 0⟩, ⟨"chat", "host", ["b"], 1⟩,
          ⟨"chat", "host", ["c"], 2⟩].foldl publish wSys) "alpha"
      = [⟨"chat", "host", ["a"], 0⟩, ⟨"chat", "host", ["b"], 1⟩, ⟨"chat", "host", ["c"], 2⟩] :=
  ⟨by decide, by
    have h := (eventBus_ordered_delivery wSys "alpha"
      ⟨.Running, [.serviceApi "twitch" ["send-message"]], ["chat"], []⟩
      [⟨"chat", "host", ["a"], 0⟩, ⟨"chat", "host", ["b"], 1⟩, ⟨"chat", "host", ["c"], 2⟩]
      (by decide) (by decide) (by decide)).1
    simpa using h⟩

/-- C6, counterexample to the unconditional claim: in the §8 overflow run
event 1 is published while `p`'s matching Subscription is active, yet the
stalled subscriber never receives it — the oldest-drop policy discards it
before delivery, so "exactly once" fails without the no-overflow
proviso. -/
theorem eventBus_exactly_once_counterexample :
    subscribedTo subC7.subs "p" (evC7 1).type = true
    ∧ evC7 1 ∈ runC7.published
    ∧ evC7 1 ∉ queueOf runC7 "p" := by
  decide

/-- C7 (amended): with capacity 4 and the oldest-drop policy, publishing
six events to the stalled subscriber leaves exactly events 3–6 in its
queue and publishes two `Dropped` diagnostics, for events 1 and 2; the
publisher is never blocked (each publish returns synchronously). -/
theorem eventBus_overflow_oldest_drop :
    queueOf runC7 "p" = [evC7 3, evC7 4, evC7 5, evC7 6]
    ∧ runC7.diags = [droppedDiag "p" (evC7 1), droppedDiag "p" (evC7 2)] := by
  decide

/-- C7, counterexample to the claim as stated: the overflow run produces
two `Dropped` diagnostics (for events 1 and 2), not exactly one for
event 1. -/
theorem eventBus_overflow_counterexample :
    queueOf runC7 "p" = [evC7 3, evC7 4, evC7 5, evC7 6]
    ∧ runC7.diags.length = 2
    ∧ ¬ runC7.diags = [droppedDiag "p" (evC7 1)] := by
  decide

end Pato

namespace Pato

/-! ## Subscription invariant preservation -/

theorem subsWF_iff (subs : List Subscription) (plugins : List (PluginId × PluginRec)) :
    subsWF subs plugins = true
      ↔ ∀ s ∈ subs, ∃ r, assocLookup plugins s.pluginId = some r ∧ activeState r.state = true := by
  simp only [subsWF, List.all_eq_true]
  constructor
  · intro h s hs
    have hx := h s hs
    cases hL : assocLookup plugins s.pluginId with
    | none => rw [hL] at hx; exact absurd hx (by simp)
    | some r => rw [hL] at hx; exact ⟨r, rfl, hx⟩
  · intro h s hs
    rcases h s hs with ⟨r, hr, ha⟩
    rw [hr]
    exact ha

theorem wf_updActive (subs : List Subscription) (plugins : List (PluginId × PluginRec))
    (pid : PluginId) (f : PluginRec → PluginRec)
    (hf : ∀ r, activeState (f r).state = true)
    (h : subsWF subs plugins = true) :
    subsWF subs (updRecs pid f plugins) = true := by
  rw [subsWF_iff] at h ⊢
  intro s hs
  rcases h s hs with ⟨r, hr, ha⟩
  rw [assocLookup_updRecs]
  by_cases hid : s.pluginId = pid
  · subst hid
    rw [if_pos rfl, hr]
    exact ⟨f r, rfl, hf r⟩
  · rw [if_neg hid]
    exact ⟨r, hr, ha⟩

theorem wf_updInactive (subs : List Subscription) (plugins : List (PluginId × PluginRec))
    (pid : PluginId) (r : PluginRec) (f : PluginRec → PluginRec)
    (hp : assocLookup plugins pid = some r)
    (hr : activeState r.state = false)
    (h : subsWF subs plugins = true) :
    subsWF subs (updRecs pid f plugins) = true := by
  rw [subsWF_iff] at h ⊢
  intro s hs
  rcases h s hs with ⟨r0, hr0, ha0⟩
  rw [assocLookup_updRecs]
  by_cases hid : s.pluginId = pid
  · subst hid
    rw [hp] at hr0
    cases hr0
    rw [ha0] at hr
    cases hr
  · rw [if_neg hid]
    exact ⟨r0, hr0, ha0⟩

theorem wf_revoke (subs : List Subscription) (plugins : List (PluginId × PluginRec))
    (pid : PluginId) (f : PluginRec → PluginRec)
    (h : subsWF subs plugins = true) :
    subsWF (revokeSubs subs pid) (updRecs pid f plugins) = true := by
  rw [subsWF_iff] at h ⊢
  intro s hs
  rcases (revokeSubs_mem subs pid s).mp hs with ⟨hmem, hne⟩
  rcases h s hmem with ⟨r, hr, ha⟩
  rw [assocLookup_updRecs, if_neg hne]
  exact ⟨r, hr, ha⟩

end Pato

namespace Pato

theorem wf_loadPlugin (sys : Sys) (pid : PluginId) (caps : List Capability)
    (decl : List String) (h : subsWF sys.subs sys.plugins = true) :
    subsWF (loadPlugin sys pid caps decl).subs (loadPlugin sys pid caps decl).plugins = true := by
  unfold loadPlugin
  cases hA : assocLookup sys.plugins pid with
  | some r => exact h
  | none =>
    rw [subsWF_iff] at h ⊢
    intro s hs
    rcases h s hs with ⟨r, hr, ha⟩
    exact ⟨r, assocLookup_append_left _ _ _ _ hr, ha⟩

theorem wf_startPlugin (sys : Sys) (pid : PluginId)
    (h : subsWF sys.subs sys.plugins = true) :
    subsWF (startPlugin sys pid).subs (startPlugin sys pid).plugins = true := by
  unfold startPlugin
  cases hL : stateOf sys pid with
  | none => exact h
  | some st =>
    cases st
    case Initialized =>
      exact wf_updActive sys.subs sys.plugins pid
        (fun q => { q with state := .Running }) (fun r => rfl) h
    all_goals exact h

theorem wf_suspendPlugin (sys : Sys) (pid : PluginId)
    (h : subsWF sys.subs sys.plugins = true) :
    subsWF (suspendPlugin sys pid).subs (suspendPlugin sys pid).plugins = true := by
  unfold suspendPlugin
  cases hL : stateOf sys pid with
  | none => exact h
  | some st =>
    cases st
    case Running =>
      exact wf_updActive sys.subs sys.plugins pid
        (fun q => { q with state := .Suspended }) (fun r => rfl) h
    all_goals exact h

theorem wf_resumePlugin (sys : Sys) (pid : PluginId)
    (h : subsWF sys.subs sys.plugins = true) :
    subsWF (resumePlugin sys pid).subs (resumePlugin sys pid).plugins = true := by
  unfold resumePlugin
  cases hL : stateOf sys pid with
  | none => exact h
  | some st =>
    cases st
    case Suspended =>
      exact wf_updActive sys.subs sys.plugins pid
        (fun q => { q with state := .Running }) (fun r => rfl) h
    all_goals exact h

theorem wf_shutdownPlugin (sys : Sys) (pid : PluginId)
    (h : subsWF sys.subs sys.plugins = true) :
    subsWF (shutdownPlugin sys pid).subs (shutdownPlugin sys pid).plugins = true := by
  unfold shutdownPlugin
  cases hL : stateOf sys pid with
  | none => exact h
  | some st =>
    cases st
    case Initialized =>
      exact wf_revoke sys.subs sys.plugins pid
        (fun q => { q with state := .ShuttingDown, queue := [] }) h
    case Running =>
      exact wf_revoke sys.subs sys.plugins pid
        (fun q => { q with state := .ShuttingDown, queue := [] }) h
    case Suspended =>
      exact wf_revoke sys.subs sys.plugins pid
        (fun q => { q with state := .ShuttingDown, queue := [] }) h
    all_goals exact h

theorem wf_trap (sys : Sys) (pid : PluginId)
    (h : subsWF sys.subs sys.plugins = true) :
    subsWF (trap sys pid).subs (trap sys pid).plugins = true := by
  unfold trap
  cases hL : stateOf sys pid with
  | none => exact h
  | some st =>
    cases st
    case Running =>
      exact wf_revoke sys.subs sys.plugins pid
        (fun q => { q with state := .Failed, queue := [] }) h
    all_goals exact h

theorem stateOf_some_rec (sys : Sys) (pid : PluginId) (st : PluginState)
    (h : stateOf sys pid = some st) :
    ∃ r, assocLookup sys.plugins pid = some r ∧ r.state = st := by
  unfold stateOf at h
  cases hA : assocLookup sys.plugins pid with
  | none => rw [hA] at h; cases h
  | some r =>
    rw [hA] at h
    exact ⟨r, rfl, by simpa using h⟩

theorem wf_finishShutdown (sys : Sys) (pid : PluginId)
    (h : subsWF sys.subs sys.plugins = true) :
    subsWF (finishShutdown sys pid).subs (finishShutdown sys pid).plugins = true := by
  unfold finishShutdown
  cases hL : stateOf sys pid with
  | none => exact h
  | some st =>
    cases st
    case ShuttingDown =>
      rcases stateOf_some_rec sys pid _ hL with ⟨r, hA, hst⟩
      exact wf_updInactive sys.subs sys.plugins pid r
        (fun q => { q with state := .ShutDown }) hA (by rw [hst]; rfl) h
    all_goals exact h

theorem wf_initPlugin (sys : Sys) (pid : PluginId) (ok : Bool)
    (h : subsWF sys.subs sys.plugins = true) :
    subsWF (initPlugin sys pid ok).subs (initPlugin sys pid ok).plugins = true := by
  unfold initPlugin
  split
  next r hA =>
    split
    next hL =>
      split
      next hok =>
        rw [subsWF_iff]
        intro s hs
        rcases List.mem_append.mp hs with hs1 | hs1
        · rcases (subsWF_iff _ _).mp h s hs1 with ⟨r0, hr0, ha0⟩
          rw [assocLookup_updRecs]
          by_cases hid : s.pluginId = pid
          · have hr0p : assocLookup sys.plugins pid = some r0 := hid ▸ hr0
            rw [if_pos hid, hr0p]
            exact ⟨{ r0 with state := .Initialized }, by simp, rfl⟩
          · rw [if_neg hid]
            exact ⟨r0, hr0, ha0⟩
        · rcases List.mem_map.mp hs1 with ⟨pat, hpat, rfl⟩
          rw [assocLookup_updRecs]
          have hproj : ({ pluginId := pid, pattern := pat } : Subscription).pluginId = pid := rfl
          rw [hproj, if_pos rfl, hA]
          exact ⟨{ r with state := .Initialized }, by simp, rfl⟩
      next hok =>
        exact wf_updInactive sys.subs sys.plugins pid r
          (fun q => { q with state := .Failed }) hA (by rw [hL]; rfl) h
    next hL => exact h
  next hA => exact h

theorem wf_publish (sys : Sys) (e : Event)
    (h : subsWF sys.subs sys.plugins = true) :
    subsWF (publish sys e).subs (publish sys e).plugins = true := by
  rw [subsWF_iff] at h ⊢
  intro s hs
  rcases h s hs with ⟨r, hr, ha⟩
  rw [publish_plugins_lookup, hr]
  exact ⟨deliverRec sys.subs sys.capacity e s.pluginId r, by simp,
    by rw [deliverRec_state]; exact ha⟩

end Pato

namespace Pato

theorem wf_invoke (sys : Sys) (pid : PluginId) (fn : String) (args : List String)
    (h : subsWF sys.subs sys.plugins = true) :
    subsWF (invoke sys pid fn args).2.subs (invoke sys pid fn args).2.plugins = true := by
  unfold invoke
  split
  next hA => exact h
  next r hA =>
    split
    next hR =>
      split
      next hG =>
        show subsWF (dispatch sys pid fn args).2.subs (dispatch sys pid fn args).2.plugins = true
        unfold dispatch
        split
        · split
          next => exact h
          next => exact h
        · next pid2 ty rest heq1 heq2 =>
          rw [subsWF_iff]
          intro s hs
          rcases List.mem_append.mp hs with hs1 | hs1
          · exact (subsWF_iff _ _).mp h s hs1
          · rw [List.mem_singleton.mp hs1]
            exact ⟨r, hA, by rw [hR]; rfl⟩
        · exact wf_publish _ _ h
        · split
          next => exact h
          next => exact h
        · exact h
      next hG => exact h
    next hR => exact h

theorem wf_step (sys : Sys) (c : Cmd)
    (h : subsWF sys.subs sys.plugins = true) :
    subsWF (step sys c).subs (step sys c).plugins = true := by
  cases c with
  | load pid caps decl => exact wf_loadPlugin sys pid caps decl h
  | initP pid ok => exact wf_initPlugin sys pid ok h
  | start pid => exact wf_startPlugin sys pid h
  | suspend pid => exact wf_suspendPlugin sys pid h
  | resume pid => exact wf_resumePlugin sys pid h
  | shutdown pid => exact wf_shutdownPlugin sys pid h
  | finish pid => exact wf_finishShutdown sys pid h
  | trap pid => exact wf_trap sys pid h
  | publish ty payload => exact wf_publish _ _ h
  | invoke pid fn args => exact wf_invoke sys pid fn args h

theorem wf_run (cmds : List Cmd) (sys : Sys)
    (h : subsWF sys.subs sys.plugins = true) :
    subsWF (run sys cmds).subs (run sys cmds).plugins = true := by
  induction cmds generalizing sys with
  | nil => exact h
  | cons c t ih => exact ih (step sys c) (wf_step sys c h)

/-- C5: in every state reachable by a session from a state satisfying the
§3 invariant, every Subscription's plugin id references a plugin whose
state is strictly in `{Initialized, Running, Suspended}` — subscriptions
are created atomically on entry to `Initialized` (or by a `Running`
caller's `subscribe-to-event`) and destroyed atomically on entry to
`ShuttingDown` or `Failed`, so every lifecycle transition preserves the
invariant. -/
theorem subscription_states_invariant (cmds : List Cmd) (sys : Sys)
    (h : subsWF sys.subs sys.plugins = true) :
    subsWF (run sys cmds).subs (run sys cmds).plugins = true :=
  wf_run cmds sys h

/-- Witness for C5: a concrete session that loads, initializes, starts,
suspends, resumes and finally traps a second plugin `gamma` keeps the
invariant true throughout, starting from the concrete session state. -/
theorem subscription_states_invariant_witness :
    subsWF wSys.subs wSys.plugins = true
    ∧ subsWF
        (run wSys
          [.load "gamma" [] ["chat", "*"], .initP "gamma" true, .start "gamma",
           .publish "chat" ["hello"], .suspend "gamma", .resume "gamma",
           .invoke "gamma" "subscribe-to-event" ["alerts"], .trap "gamma",
           .publish "chat" ["after"]]).subs
        (run wSys
          [.load "gamma" [] ["chat", "*"], .initP "gamma" true, .start "gamma",
           .publish "chat" ["hello"], .suspend "gamma", .resume "gamma",
           .invoke "gamma" "subscribe-to-event" ["alerts"], .trap "gamma",
           .publish "chat" ["after"]]).plugins = true :=
  ⟨by decide,
    subscription_states_invariant
      [.load "gamma" [] ["chat", "*"], .initP "gamma" true, .start "gamma",
       .publish "chat" ["hello"], .suspend "gamma", .resume "gamma",
       .invoke "gamma" "subscribe-to-event" ["alerts"], .trap "gamma",
       .publish "chat" ["after"]] wSys (by decide)⟩

end Pato

namespace Pato

/-! ## Credential isolation: atom-tracking lemmas -/

theorem mem_sysAtoms (sys : Sys) (a : String) :
    a ∈ sysAtoms sys ↔
      (∃ e ∈ sys.published, a ∈ eventAtoms e)
      ∨ (∃ e ∈ sys.diags, a ∈ eventAtoms e)
      ∨ (∃ v ∈ sys.returns, a ∈ v)
      ∨ (∃ s ∈ sys.subs, a = s.pluginId ∨ a = s.pattern)
      ∨ (∃ pr ∈ sys.plugins, a ∈ recAtoms pr.1 pr.2) := by
  simp [sysAtoms, List.mem_append, List.mem_flatMap, List.mem_flatten]

theorem assocLookup_mem {β : Type} (ps : List (String × β)) (k : String) (r : β)
    (h : assocLookup ps k = some r) : (k, r) ∈ ps := by
  induction ps with
  | nil => cases h
  | cons p t ih =>
    by_cases hk : p.1 = k
    · rw [assocLookup, if_pos hk] at h
      cases h
      subst hk
      exact List.mem_cons_self _ _
    · rw [assocLookup, if_neg hk] at h
      exact List.mem_cons_of_mem _ (ih h)

end Pato

namespace Pato

theorem droppedDiag_atoms (pid : PluginId) (d : Event) (a : String)
    (h : a ∈ eventAtoms (droppedDiag pid d)) :
    a ∈ hostAtoms ∨ a = pid ∨ a ∈ eventAtoms d := by
  simp [droppedDiag, eventAtoms, hostAtoms] at h ⊢
  tauto

theorem recAtoms_pid (pid : PluginId) (r : PluginRec) : pid ∈ recAtoms pid r :=
  List.mem_cons_self _ _

theorem recAtoms_of_queue (pid : PluginId) (r : PluginRec) (x : Event) (a : String)
    (hx : x ∈ r.queue) (ha : a ∈ eventAtoms x) : a ∈ recAtoms pid r := by
  simp [recAtoms]
  exact Or.inr (Or.inr (Or.inr ⟨x, hx, ha⟩))

theorem recAtoms_deliverRec (subs : List Subscription) (cap : Nat) (e : Event)
    (pid : PluginId) (r : PluginRec) (a : String)
    (h : a ∈ recAtoms pid (deliverRec subs cap e pid r)) :
    a ∈ recAtoms pid r ∨ a ∈ eventAtoms e := by
  unfold deliverRec at h
  split at h
  · simp [recAtoms] at h ⊢
    rcases h with h | h | h | ⟨x, hx, hax⟩
    · exact Or.inl (Or.inl h)
    · exact Or.inl (Or.inr (Or.inl h))
    · exact Or.inl (Or.inr (Or.inr (Or.inl h)))
    · rcases enqueue_fst_mem cap r.queue e x hx with hq | hq
      · exact Or.inl (Or.inr (Or.inr (Or.inr ⟨x, hq, hax⟩)))
      · subst hq
        exact Or.inr hax
  · exact Or.inl h

theorem publish_atoms (sys : Sys) (e : Event) (a : String)
    (h : a ∈ sysAtoms (publish sys e)) :
    a ∈ sysAtoms sys ∨ a ∈ eventAtoms e ∨ a ∈ hostAtoms := by
  rw [mem_sysAtoms] at h
  simp only [publish] at h
  rcases h with ⟨x, hx, ha⟩ | ⟨x, hx, ha⟩ | ⟨v, hv, ha⟩ | ⟨s, hs, ha⟩ | ⟨pr, hpr, ha⟩
  · rcases List.mem_append.mp hx with hx1 | hx1
    · exact Or.inl ((mem_sysAtoms sys a).mpr (Or.inl ⟨x, hx1, ha⟩))
    · rw [List.mem_singleton.mp hx1] at ha
      exact Or.inr (Or.inl ha)
  · rcases List.mem_append.mp hx with hx1 | hx1
    · exact Or.inl ((mem_sysAtoms sys a).mpr (Or.inr (Or.inl ⟨x, hx1, ha⟩)))
    · rcases List.mem_filterMap.mp hx1 with ⟨pr, hpr, hdd⟩
      unfold deliverDiag at hdd
      split at hdd
      · rcases Option.map_eq_some'.mp hdd with ⟨old, hold, rfl⟩
        have holdq : old ∈ pr.2.queue := enqueue_snd_mem _ _ _ _ hold
        rcases droppedDiag_atoms pr.1 old a ha with h1 | h1 | h1
        · exact Or.inr (Or.inr h1)
        · refine Or.inl ((mem_sysAtoms sys a).mpr
            (Or.inr (Or.inr (Or.inr (Or.inr ⟨pr, hpr, ?_⟩)))))
          rw [h1]
          exact recAtoms_pid pr.1 pr.2
        · exact Or.inl ((mem_sysAtoms sys a).mpr
            (Or.inr (Or.inr (Or.inr (Or.inr ⟨pr, hpr,
              recAtoms_of_queue pr.1 pr.2 old a holdq h1⟩)))))
      · cases hdd
  · exact Or.inl ((mem_sysAtoms sys a).mpr (Or.inr (Or.inr (Or.inl ⟨v, hv, ha⟩))))
  · exact Or.inl ((mem_sysAtoms sys a).mpr (Or.inr (Or.inr (Or.inr (Or.inl ⟨s, hs, ha⟩)))))
  · rcases List.mem_map.mp hpr with ⟨pr0, hpr0, rfl⟩
    rcases recAtoms_deliverRec sys.subs sys.capacity e pr0.1 pr0.2 a ha with h1 | h1
    · exact Or.inl ((mem_sysAtoms sys a).mpr (Or.inr (Or.inr (Or.inr (Or.inr ⟨pr0, hpr0, h1⟩)))))
    · exact Or.inr (Or.inl h1)

end Pato

namespace Pato

theorem updRecs_atoms (pid : PluginId) (f : PluginRec → PluginRec)
    (ps : List (PluginId × PluginRec)) (a : String)
    (hf : ∀ p r, a ∈ recAtoms p (f r) → a ∈ recAtoms p r)
    (h : ∃ pr ∈ updRecs pid f ps, a ∈ recAtoms pr.1 pr.2) :
    ∃ pr ∈ ps, a ∈ recAtoms pr.1 pr.2 := by
  rcases h with ⟨pr, hpr, ha⟩
  rcases List.mem_map.mp hpr with ⟨pr0, hpr0, rfl⟩
  by_cases hid : pr0.1 = pid
  · rw [if_pos hid] at ha
    exact ⟨pr0, hpr0, hf pr0.1 pr0.2 ha⟩
  · rw [if_neg hid] at ha
    exact ⟨pr0, hpr0, ha⟩

theorem recAtoms_clear_queue (p : PluginId) (r : PluginRec) (st : PluginState) (a : String)
    (h : a ∈ recAtoms p { r with state := st, queue := [] }) : a ∈ recAtoms p r := by
  simp [recAtoms] at h ⊢
  rcases h with h | h | h
  · exact Or.inl h
  · exact Or.inr (Or.inl h)
  · exact Or.inr (Or.inr (Or.inl h))

theorem sysAtoms_updState (sys : Sys) (pid : PluginId) (f : PluginRec → PluginRec)
    (hf : ∀ p r (a : String), a ∈ recAtoms p (f r) → a ∈ recAtoms p r)
    (a : String)
    (h : a ∈ sysAtoms { sys with plugins := updRecs pid f sys.plugins }) :
    a ∈ sysAtoms sys := by
  rw [mem_sysAtoms] at h
  rcases h with h | h | h | h | h
  · exact (mem_sysAtoms sys a).mpr (Or.inl h)
  · exact (mem_sysAtoms sys a).mpr (Or.inr (Or.inl h))
  · exact (mem_sysAtoms sys a).mpr (Or.inr (Or.inr (Or.inl h)))
  · exact (mem_sysAtoms sys a).mpr (Or.inr (Or.inr (Or.inr (Or.inl h))))
  · exact (mem_sysAtoms sys a).mpr
      (Or.inr (Or.inr (Or.inr (Or.inr (updRecs_atoms pid f sys.plugins a (fun p r => hf p r a) h)))))

theorem sysAtoms_upd_revoke (sys : Sys) (pid : PluginId) (f : PluginRec → PluginRec)
    (hf : ∀ p r (a : String), a ∈ recAtoms p (f r) → a ∈ recAtoms p r)
    (a : String)
    (h : a ∈ sysAtoms
      { sys with
        plugins := updRecs pid f sys.plugins
        subs := revokeSubs sys.subs pid }) :
    a ∈ sysAtoms sys := by
  rw [mem_sysAtoms] at h
  rcases h with h | h | h | h | h
  · exact (mem_sysAtoms sys a).mpr (Or.inl h)
  · exact (mem_sysAtoms sys a).mpr (Or.inr (Or.inl h))
  · exact (mem_sysAtoms sys a).mpr (Or.inr (Or.inr (Or.inl h)))
  · rcases h with ⟨s, hs, ha⟩
    exact (mem_sysAtoms sys a).mpr (Or.inr (Or.inr (Or.inr (Or.inl
      ⟨s, ((revokeSubs_mem sys.subs pid s).mp hs).1, ha⟩))))
  · exact (mem_sysAtoms sys a).mpr
      (Or.inr (Or.inr (Or.inr (Or.inr (updRecs_atoms pid f sys.plugins a (fun p r => hf p r a) h)))))

end Pato

namespace Pato

theorem dispatch_atoms (sys : Sys) (pid : PluginId) (fn : String) (args : List String)
    (a : String)
    (h : a ∈ sysAtoms (dispatch sys pid fn args).2 ∨ a ∈ resAtoms (dispatch sys pid fn args).1) :
    a ∈ sysAtoms sys ∨ a ∈ pid :: fn :: args ∨ a ∈ hostAtoms := by
  unfold dispatch at h
  split at h
  · -- send-message
    split at h
    · rcases h with h | h
      · exact Or.inl h
      · simp [resAtoms, hostAtoms] at h ⊢
        tauto
    · rcases h with h | h
      · exact Or.inl h
      · simp [resAtoms] at h
  · -- subscribe-to-event
    rcases h with h | h
    · rw [mem_sysAtoms] at h
      rcases h with h | h | h | h | h
      · exact Or.inl ((mem_sysAtoms sys a).mpr (Or.inl h))
      · exact Or.inl ((mem_sysAtoms sys a).mpr (Or.inr (Or.inl h)))
      · exact Or.inl ((mem_sysAtoms sys a).mpr (Or.inr (Or.inr (Or.inl h))))
      · rcases h with ⟨s, hs, ha⟩
        rcases List.mem_append.mp hs with hs1 | hs1
        · exact Or.inl ((mem_sysAtoms sys a).mpr (Or.inr (Or.inr (Or.inr (Or.inl ⟨s, hs1, ha⟩)))))
        · rw [List.mem_singleton.mp hs1] at ha
          simp at ha ⊢
          tauto
      · exact Or.inl ((mem_sysAtoms sys a).mpr (Or.inr (Or.inr (Or.inr (Or.inr h)))))
    · simp [resAtoms] at h ⊢
      tauto
  · -- emit-event
    rcases h with h | h
    · rcases publish_atoms _ _ a h with h1 | h1 | h1
      · exact Or.inl h1
      · simp [eventAtoms] at h1 ⊢
        tauto
      · exact Or.inr (Or.inr h1)
    · simp [resAtoms] at h
  · -- call-plugin
    split at h
    · rcases h with h | h
      · exact Or.inl h
      · simp [resAtoms, hostAtoms] at h ⊢
        tauto
    · rcases h with h | h
      · exact Or.inl h
      · simp [resAtoms] at h
  · -- default
    rcases h with h | h
    · exact Or.inl h
    · simp [resAtoms] at h

end Pato

namespace Pato

theorem invoke_atoms (sys : Sys) (pid : PluginId) (fn : String) (args : List String)
    (a : String) (h : a ∈ sysAtoms (invoke sys pid fn args).2) :
    a ∈ sysAtoms sys ∨ a ∈ pid :: fn :: args ∨ a ∈ hostAtoms := by
  unfold invoke at h
  split at h
  · exact Or.inl h
  · split at h
    · split at h
      · -- granted: dispatch plus returns record
        rw [mem_sysAtoms] at h
        rcases h with h | h | h | h | h
        · exact dispatch_atoms sys pid fn args a
            (Or.inl ((mem_sysAtoms _ a).mpr (Or.inl h)))
        · exact dispatch_atoms sys pid fn args a
            (Or.inl ((mem_sysAtoms _ a).mpr (Or.inr (Or.inl h))))
        · rcases h with ⟨v, hv, ha⟩
          rcases List.mem_append.mp hv with hv1 | hv1
          · exact dispatch_atoms sys pid fn args a
              (Or.inl ((mem_sysAtoms _ a).mpr (Or.inr (Or.inr (Or.inl ⟨v, hv1, ha⟩)))))
          · rw [List.mem_singleton.mp hv1] at ha
            exact dispatch_atoms sys pid fn args a (Or.inr ha)
        · exact dispatch_atoms sys pid fn args a
            (Or.inl ((mem_sysAtoms _ a).mpr (Or.inr (Or.inr (Or.inr (Or.inl h))))))
        · exact dispatch_atoms sys pid fn args a
            (Or.inl ((mem_sysAtoms _ a).mpr (Or.inr (Or.inr (Or.inr (Or.inr h))))))
      · exact Or.inl h
    · exact Or.inl h

end Pato

namespace Pato

theorem step_atoms (sys : Sys) (c : Cmd) (a : String)
    (h : a ∈ sysAtoms (step sys c)) :
    a ∈ sysAtoms sys ∨ a ∈ cmdAtoms c ∨ a ∈ hostAtoms := by
  cases c with
  | load pid caps decl =>
    simp only [step] at h
    unfold loadPlugin at h
    split at h
    · exact Or.inl h
    · rw [mem_sysAtoms] at h
      rcases h with h | h | h | h | h
      · exact Or.inl ((mem_sysAtoms sys a).mpr (Or.inl h))
      · exact Or.inl ((mem_sysAtoms sys a).mpr (Or.inr (Or.inl h)))
      · exact Or.inl ((mem_sysAtoms sys a).mpr (Or.inr (Or.inr (Or.inl h))))
      · exact Or.inl ((mem_sysAtoms sys a).mpr (Or.inr (Or.inr (Or.inr (Or.inl h)))))
      · rcases h with ⟨pr, hpr, ha⟩
        rcases List.mem_append.mp hpr with hp1 | hp1
        · exact Or.inl ((mem_sysAtoms sys a).mpr
            (Or.inr (Or.inr (Or.inr (Or.inr ⟨pr, hp1, ha⟩)))))
        · rw [List.mem_singleton.mp hp1] at ha
          right; left
          simp [recAtoms, cmdAtoms] at ha ⊢
          tauto
  | initP pid ok =>
    simp only [step] at h
    unfold initPlugin at h
    split at h
    next r hA =>
      split at h
      next hL =>
        split at h
        next hok =>
          rw [mem_sysAtoms] at h
          rcases h with h | h | h | h | h
          · exact Or.inl ((mem_sysAtoms sys a).mpr (Or.inl h))
          · exact Or.inl ((mem_sysAtoms sys a).mpr (Or.inr (Or.inl h)))
          · exact Or.inl ((mem_sysAtoms sys a).mpr (Or.inr (Or.inr (Or.inl h))))
          · rcases h with ⟨s, hs, ha⟩
            rcases List.mem_append.mp hs with hs1 | hs1
            · exact Or.inl ((mem_sysAtoms sys a).mpr
                (Or.inr (Or.inr (Or.inr (Or.inl ⟨s, hs1, ha⟩)))))
            · rcases List.mem_map.mp hs1 with ⟨pat, hpat, rfl⟩
              simp only at ha
              rcases ha with ha | ha
              · right; left
                simp [cmdAtoms, ha]
              · left
                refine (mem_sysAtoms sys a).mpr (Or.inr (Or.inr (Or.inr (Or.inr
                  ⟨(pid, r), assocLookup_mem sys.plugins pid r hA, ?_⟩))))
                simp [recAtoms]
                exact Or.inr (Or.inr (Or.inl (ha ▸ hpat)))
          · left
            exact (mem_sysAtoms sys a).mpr (Or.inr (Or.inr (Or.inr (Or.inr
              (updRecs_atoms pid (fun q => { q with state := PluginState.Initialized })
                sys.plugins a (fun p r0 hh => hh) h)))))
        next hok =>
          exact Or.inl (sysAtoms_updState sys pid
            (fun q => { q with state := PluginState.Failed }) (fun p r0 a0 hh => hh) a h)
      next hL => exact Or.inl h
    next hA => exact Or.inl h
  | start pid =>
    simp only [step] at h
    unfold startPlugin at h
    split at h
    · exact Or.inl (sysAtoms_updState sys pid
        (fun q => { q with state := PluginState.Running }) (fun p r0 a0 hh => hh) a h)
    · exact Or.inl h
  | suspend pid =>
    simp only [step] at h
    unfold suspendPlugin at h
    split at h
    · exact Or.inl (sysAtoms_updState sys pid
        (fun q => { q with state := PluginState.Suspended }) (fun p r0 a0 hh => hh) a h)
    · exact Or.inl h
  | resume pid =>
    simp only [step] at h
    unfold resumePlugin at h
    split at h
    · exact Or.inl (sysAtoms_updState sys pid
        (fun q => { q with state := PluginState.Running }) (fun p r0 a0 hh => hh) a h)
    · exact Or.inl h
  | finish pid =>
    simp only [step] at h
    unfold finishShutdown at h
    split at h
    · exact Or.inl (sysAtoms_updState sys pid
        (fun q => { q with state := PluginState.ShutDown }) (fun p r0 a0 hh => hh) a h)
    · exact Or.inl h
  | shutdown pid =>
    simp only [step] at h
    unfold shutdownPlugin at h
    split at h <;>
      first
        | exact Or.inl (sysAtoms_upd_revoke sys pid
            (fun q => { q with state := PluginState.ShuttingDown, queue := [] })
            (fun p r0 a0 hh => recAtoms_clear_queue p r0 PluginState.ShuttingDown a0 hh) a h)
        | exact Or.inl h
  | trap pid =>
    simp only [step] at h
    unfold trap at h
    split at h
    · exact Or.inl (sysAtoms_upd_revoke sys pid
        (fun q => { q with state := PluginState.Failed, queue := [] })
        (fun p r0 a0 hh => recAtoms_clear_queue p r0 PluginState.Failed a0 hh) a h)
    · exact Or.inl h
  | publish ty payload =>
    simp only [step] at h
    rcases publish_atoms _ _ a h with h1 | h1 | h1
    · exact Or.inl h1
    · simp [eventAtoms, cmdAtoms, hostAtoms] at h1 ⊢
      tauto
    · exact Or.inr (Or.inr h1)
  | invoke pid fn args =>
    simp only [step] at h
    rcases invoke_atoms sys pid fn args a h with h1 | h1 | h1
    · exact Or.inl h1
    · exact Or.inr (Or.inl h1)
    · exact Or.inr (Or.inr h1)

end Pato

namespace Pato

theorem step_vault (sys : Sys) (c : Cmd) : (step sys c).vault = sys.vault := by
  cases c with
  | load pid caps decl =>
    simp only [step]
    unfold loadPlugin
    split <;> rfl
  | initP pid ok =>
    simp only [step]
    unfold initPlugin
    split
    · split
      · split <;> rfl
      · rfl
    · rfl
  | start pid =>
    simp only [step]
    unfold startPlugin
    split <;> rfl
  | suspend pid =>
    simp only [step]
    unfold suspendPlugin
    split <;> rfl
  | resume pid =>
    simp only [step]
    unfold resumePlugin
    split <;> rfl
  | shutdown pid =>
    simp only [step]
    unfold shutdownPlugin
    split <;> rfl
  | finish pid =>
    simp only [step]
    unfold finishShutdown
    split <;> rfl
  | trap pid =>
    simp only [step]
    unfold trap
    split <;> rfl
  | publish ty payload => rfl
  | invoke pid fn args =>
    simp only [step]
    unfold invoke
    split
    · rfl
    · split
      · split
        · show (dispatch sys pid fn args).2.vault = sys.vault
          unfold dispatch
          split
          · split <;> rfl
          · rfl
          · rfl
          · split <;> rfl
          · rfl
        · rfl
      · rfl

theorem run_vault (cmds : List Cmd) (sys : Sys) : (run sys cmds).vault = sys.vault := by
  induction cmds generalizing sys with
  | nil => rfl
  | cons c t ih =>
    show (run (step sys c) t).vault = sys.vault
    rw [ih (step sys c), step_vault]

theorem run_atoms (cmds : List Cmd) (sys : Sys) (a : String)
    (h : a ∈ sysAtoms (run sys cmds)) :
    a ∈ sysAtoms sys ∨ (∃ c ∈ cmds, a ∈ cmdAtoms c) ∨ a ∈ hostAtoms := by
  induction cmds generalizing sys with
  | nil => exact Or.inl h
  | cons c t ih =>
    rcases ih (step sys c) h with h1 | h1 | h1
    · rcases step_atoms sys c a h1 with h2 | h2 | h2
      · exact Or.inl h2
      · exact Or.inr (Or.inl ⟨c, List.mem_cons_self _ _, h2⟩)
      · exact Or.inr (Or.inr h2)
    · rcases h1 with ⟨c2, hc2, ha⟩
      exact Or.inr (Or.inl ⟨c2, List.mem_cons_of_mem _ hc2, ha⟩)
    · exact Or.inr (Or.inr h1)

/-- C1: along every simulated session whose commands and start state do
not already leak a vault token (the tokens are fresh opaque handles), the
vault's token set is unchanged by the run and no token ever appears among
the plugin- or UI-observable atoms — Event payloads on the bus, `Dropped`
diagnostics, subscriber queues, Capabilities, Subscriptions, or Gateway
return values.  Tokens travel only through the host-internal
connection-manager ledger. -/
theorem credential_isolation (cmds : List Cmd) (sys : Sys)
    (hinit : ∀ t ∈ tokensOf sys, t ∉ sysAtoms sys)
    (hcmds : ∀ t ∈ tokensOf sys, ∀ c ∈ cmds, t ∉ cmdAtoms c)
    (hhost : ∀ t ∈ tokensOf sys, t ∉ hostAtoms) :
    tokensOf (run sys cmds) = tokensOf sys
    ∧ ∀ t ∈ tokensOf sys, t ∉ sysAtoms (run sys cmds) := by
  have hv : tokensOf (run sys cmds) = tokensOf sys := by
    unfold tokensOf
    rw [run_vault]
  refine ⟨hv, ?_⟩
  intro t ht hmem
  rcases run_atoms cmds sys t hmem with h | ⟨c, hc, ha⟩ | h
  · exact hinit t ht h
  · exact hcmds t ht c hc ha
  · exact hhost t ht h

/-- Witness for C1: a concrete session with a vault-backed `send-message`,
a host publish delivered to `alpha`, and a plugin-emitted event.  The
Twitch token is used internally (it reaches the connection-manager
ledger) yet never appears among the observable atoms. -/
theorem credential_isolation_witness :
    (∀ t ∈ tokensOf wSys, t ∉ sysAtoms wSys)
    ∧ (run wSys
        [.invoke "alpha" "send-message" ["twitch", "chat", "hi"],
         .publish "chat" ["hello"],
         .invoke "alpha" "emit-event" ["custom", "data1"]]).usedTokens
      = ["tok-twitch-1"]
    ∧ (∀ t ∈ tokensOf wSys,
        t ∉ sysAtoms (run wSys
          [.invoke "alpha" "send-message" ["twitch", "chat", "hi"],
           .publish "chat" ["hello"],
           .invoke "alpha" "emit-event" ["custom", "data1"]])) :=
  ⟨by decide, by decide,
    (credential_isolation
      [.invoke "alpha" "send-message" ["twitch", "chat", "hi"],
       .publish "chat" ["hello"],
       .invoke "alpha" "emit-event" ["custom", "data1"]] wSys
      (by decide) (by decide) (by decide)).2⟩

end Pato
